import Mathlib

/-!
Shallow embedding of `agents/snowflake_agent.py` and proofs about the
properties its specification claims.

Python strings are modelled as `List Char`; Python dicts with string keys
are modelled as insertion-ordered association lists (`Dict`).  Numeric
column values are modelled as rationals.  A `DATE` cell is modelled by the
result of `pd.to_datetime(..., errors="coerce")` on it: `some d` for a
parseable value and `none` for `NaT`.  The warehouse query, the LLM calls
and the matplotlib backend are external collaborators; their outputs enter
the embedded pipeline as parameters.
-/

/-- Converts a Lean string literal to the `List Char` model of Python strings. -/
def str (s : String) : List Char := s.data

/-- A Python dict with string keys and string values, modelled as an
insertion-ordered association list. -/
abbrev Dict := List (List Char × List Char)

/-- Python `d[k]` lookup (as an `Option`): the value of the first entry whose
key is `k`. -/
def dictGet? : Dict → List Char → Option (List Char)
  | [], _ => none
  | p :: d, k => if p.1 = k then some p.2 else dictGet? d k

/-- Python `d.get(k, dflt)`. -/
def dictGetD (d : Dict) (k dflt : List Char) : List Char :=
  (dictGet? d k).getD dflt

/-- Python `d[k] = v`: overwrite the value at an existing key in place, keeping
its insertion position, or append a fresh key at the end. -/
def dictInsert : Dict → List Char → List Char → Dict
  | [], k, v => [(k, v)]
  | p :: d, k, v => if p.1 = k then (k, v) :: d else p :: dictInsert d k v

/-- Python `line.split(sep, 1)`: the part before the first occurrence of `sep`
and, when `sep` occurs at all, the remainder after it. `(l, none)` means `sep`
does not occur in the line (Python `sep in line` is `False`). -/
def splitFirst (sep : Char) : List Char → List Char × Option (List Char)
  | [] => ([], none)
  | c :: cs =>
    if c = sep then ([], some cs)
    else
      let r := splitFirst sep cs
      (c :: r.1, r.2)

/-- Python `s.split(sep)` (no maxsplit): split into the parts between
occurrences of `sep`; always returns at least one (possibly empty) part. -/
def splitOnChar (sep : Char) : List Char → List (List Char)
  | [] => [[]]
  | c :: cs =>
    if c = sep then [] :: splitOnChar sep cs
    else
      match splitOnChar sep cs with
      | [] => [[c]]
      | p :: ps => (c :: p) :: ps

/-- Python `s.strip()`: drop leading and trailing whitespace. -/
def trimChars (s : List Char) : List Char :=
  ((s.dropWhile Char.isWhitespace).reverse.dropWhile Char.isWhitespace).reverse

/-- `get_graph_specs_from_llm`, parsing stage (snowflake_agent.py lines
100-104): split the LLM response text on newlines; for each line containing a
colon, split at the first colon and store `trimmed key ↦ trimmed value` in the
specs dict; lines without a colon are skipped. -/
def parseSpecs (text : List Char) : Dict :=
  (splitOnChar '\n' text).foldl
    (fun specs line =>
      match splitFirst ':' line with
      | (k, some v) => dictInsert specs (trimChars k) (trimChars v)
      | (_, none) => specs)
    []

/-- The `(trimmed key, trimmed value)` pair a single line contributes to the
specs dict, when it contains a colon. -/
def lineEntry? (line : List Char) : Option (List Char × List Char) :=
  match splitFirst ':' line with
  | (k, some v) => some (trimChars k, trimChars v)
  | (_, none) => none

/-- The per-line `(key, value)` pairs of a response text, in line order. -/
def lineEntries (text : List Char) : List (List Char × List Char) :=
  (splitOnChar '\n' text).filterMap lineEntry?

/-- The value attached to the LAST entry of `entries` whose key is `k`
(later entries take precedence). -/
def lastBinding? : List (List Char × List Char) → List Char → Option (List Char)
  | [], _ => none
  | p :: es, k =>
    match lastBinding? es k with
    | some v => some v
    | none => if p.1 = k then some p.2 else none

/-- Python `s.lower()` (the spec keys and values compared here are ASCII). -/
def lowerStr (s : List Char) : List Char := s.map Char.toLower

/-- `create_graph_from_llm_specs` line 133:
`graph_type = specs.get("Type", "stacked").lower()`. -/
def graphType (specs : Dict) : List Char :=
  lowerStr (dictGetD specs (str "Type") (str "stacked"))

/-- `create_graph_from_llm_specs` line 141: the stacked-area drawing path is
taken exactly when `graph_type == "stacked"`; otherwise the line-plot path. -/
def usesStacked (specs : Dict) : Bool :=
  decide (graphType specs = str "stacked")

/-- `create_graph_from_llm_specs` lines 135 and 155: the rendered chart title,
`f"{specs.get('Title', 'NVIDIA Financial Metrics')} (Normalized)"`. -/
def renderedTitle (specs : Dict) : List Char :=
  dictGetD specs (str "Title") (str "NVIDIA Financial Metrics") ++ str " (Normalized)"

/-- `create_graph_from_llm_specs` line 156: the rendered x-axis label,
`specs.get("X-axis", "Date")`. -/
def renderedXLabel (specs : Dict) : List Char :=
  dictGetD specs (str "X-axis") (str "Date")

/-- `create_graph_from_llm_specs` lines 134 and 157: the rendered y-axis label,
`specs.get("Y-axis", "Normalized Value (0-1 scale)")`. -/
def renderedYLabel (specs : Dict) : List Char :=
  dictGetD specs (str "Y-axis") (str "Normalized Value (0-1 scale)")

/-- Pandas `Series.min()` of a numeric column. -/
def colMin : List ℚ → ℚ
  | [] => 0
  | x :: xs => xs.foldl min x

/-- Pandas `Series.max()` of a numeric column. -/
def colMax : List ℚ → ℚ
  | [] => 0
  | x :: xs => xs.foldl max x

/-- `create_graph_from_llm_specs` lines 123-126, one column: when
`max_val - min_val != 0` replace each value `x` by
`(x - min_val) / (max_val - min_val)`; otherwise leave the column as is. -/
def normalizeColumn (xs : List ℚ) : List ℚ :=
  if colMax xs - colMin xs ≠ 0 then
    xs.map (fun x => (x - colMin xs) / (colMax xs - colMin xs))
  else xs

/-- `create_graph_from_llm_specs` lines 121-126: normalize every column of the
table except `DATE`. -/
def normalizeTable (cols : List (List Char × List ℚ)) : List (List Char × List ℚ) :=
  cols.map (fun c => if c.1 = str "DATE" then c else (c.1, normalizeColumn c.2))

/-- `sub` is a non-empty-or-empty leading segment of `s`
(helper for Python substring containment). -/
def leadsWith : List Char → List Char → Bool
  | [], _ => true
  | _ :: _, [] => false
  | a :: s, b :: t => a == b && leadsWith s t

/-- Python `sub in s` for strings: `sub` occurs contiguously somewhere in `s`. -/
def occursIn : List Char → List Char → Bool
  | sub, [] => leadsWith sub []
  | sub, c :: rest => leadsWith sub (c :: rest) || occursIn sub rest

/-- The provider client `initialize_llm` constructs, with the model name the
constructor receives. -/
inductive LLMClient where
  | anthropic (model : List Char)
  | gemini (model : List Char)
  | deepseek (model : List Char)
  | groq (model : List Char)
deriving DecidableEq

/-- `initialize_llm` (snowflake_agent.py lines 245-281): case-sensitive
substring dispatch on the model name, in the order claude, gemini, deepseek,
grok; any other name gets the Anthropic client with the fixed model
`claude-3-haiku-20240307`. -/
def initLlm (model_name : List Char) : LLMClient :=
  if occursIn (str "claude") model_name then .anthropic model_name
  else if occursIn (str "gemini") model_name then .gemini model_name
  else if occursIn (str "deepseek") model_name then .deepseek model_name
  else if occursIn (str "grok") model_name then .groq model_name
  else .anthropic (str "claude-3-haiku-20240307")

/-- The hardcoded default spec `get_valuation_summary_with_llm_graph`
substitutes when `get_graph_specs_from_llm` returns an empty dict
(lines 218-224). -/
def defaultSpecs : Dict :=
  [(str "Title", str "Default Graph"),
   (str "Type", str "line"),
   (str "X-axis", str "Date"),
   (str "Y-axis", str "Value"),
   (str "Additional elements", str "grid, legend")]

/-- Lines 216-224: `if not graph_specs:` — an empty (falsy) LLM spec dict is
replaced by `defaultSpecs`; a non-empty one is used as is. -/
def specsUsed (llmSpecs : Dict) : Dict :=
  if llmSpecs = [] then defaultSpecs else llmSpecs

/-- Line 201: `df.columns.str.upper().str.strip()` applied to one column name. -/
def normalizeColName (s : List Char) : List Char :=
  trimChars (s.map Char.toUpper)

/-- The query result `get_valuation_summary_with_llm_graph` receives from
`pd.read_sql` before validation: the raw column names, the number of rows, and
for each row the result of `pd.to_datetime(..., errors="coerce")` on its DATE
cell (`none` = `NaT`). -/
structure FetchedFrame where
  colNames : List (List Char)
  nRows : Nat
  dateCells : List (Option Int)
deriving DecidableEq

/-- The record `get_valuation_summary_with_llm_graph` returns: a success record
carrying the spec dict and chart path, or a `status: "failed"` record carrying
the error message. -/
inductive ValuationResult where
  | success (specs : Dict) (chartPath : List Char)
  | failed (errMsg : List Char)
deriving DecidableEq

/-- The `status` field of the returned record. -/
def statusOf : ValuationResult → List Char
  | .success _ _ => str "success"
  | .failed _ => str "failed"

/-- One run of `get_valuation_summary_with_llm_graph`, together with whether
the LLM spec stage (`get_graph_specs_from_llm`) and the chart renderer
(`create_graph_from_llm_specs`) were reached during it. -/
structure PipelineRun where
  result : ValuationResult
  llmInvoked : Bool
  rendererInvoked : Bool
deriving DecidableEq

/-- `get_valuation_summary_with_llm_graph` (lines 196-243).  The external LLM
answer enters as `llmSpecs` (the dict `get_graph_specs_from_llm` returned,
empty on its failure) and the renderer's success as `renderOk` (`False` models
`create_graph_from_llm_specs` returning `None`).  Validation order follows the
code: empty result set, then presence of `DATE` among the upper-cased trimmed
column names, then the all-`NaT` check; each `raise` is caught by the
surrounding handler and turned into a `failed` record. -/
def runPipeline (df : FetchedFrame) (llmSpecs : Dict) (renderOk : Bool) : PipelineRun :=
  let names := df.colNames.map normalizeColName
  if df.nRows = 0 then
    ⟨.failed (str "No data returned from Snowflake. Ensure the table contains data."),
     false, false⟩
  else if (str "DATE") ∈ names then
    if ∀ c ∈ df.dateCells, c = none then
      ⟨.failed (str "The \x27DATE\x27 column could not be parsed as datetime."),
       false, false⟩
    else
      let specs := specsUsed llmSpecs
      if renderOk then
        ⟨.success specs (str "llm_generated_graph.png"), true, true⟩
      else
        ⟨.failed (str "Failed to create graph from LLM specifications."), true, true⟩
  else
    ⟨.failed (str "The \x27DATE\x27 column is missing from the data."), false, false⟩

/-! ### Supporting lemmas -/

lemma foldl_min_le_init (l : List ℚ) : ∀ a : ℚ, l.foldl min a ≤ a := by
  induction l with
  | nil => intro a; simp
  | cons b t ih =>
    intro a
    calc t.foldl min (min a b) ≤ min a b := ih (min a b)
    _ ≤ a := min_le_left a b

lemma foldl_min_le_mem (l : List ℚ) : ∀ (a x : ℚ), x ∈ l → l.foldl min a ≤ x := by
  induction l with
  | nil => intro a x hx; cases hx
  | cons b t ih =>
    intro a x hx
    rcases List.mem_cons.mp hx with rfl | hx
    · calc t.foldl min (min a x) ≤ min a x := foldl_min_le_init t (min a x)
      _ ≤ x := min_le_right a x
    · exact ih (min a b) x hx

lemma init_le_foldl_max (l : List ℚ) : ∀ a : ℚ, a ≤ l.foldl max a := by
  induction l with
  | nil => intro a; simp
  | cons b t ih =>
    intro a
    calc a ≤ max a b := le_max_left a b
    _ ≤ t.foldl max (max a b) := ih (max a b)

lemma mem_le_foldl_max (l : List ℚ) : ∀ (a x : ℚ), x ∈ l → x ≤ l.foldl max a := by
  induction l with
  | nil => intro a x hx; cases hx
  | cons b t ih =>
    intro a x hx
    rcases List.mem_cons.mp hx with rfl | hx
    · calc x ≤ max a x := le_max_right a x
      _ ≤ t.foldl max (max a x) := init_le_foldl_max t (max a x)
    · exact ih (max a b) x hx

/-- The column minimum is a lower bound of the column's entries. -/
lemma colMin_le {xs : List ℚ} {x : ℚ} (hx : x ∈ xs) : colMin xs ≤ x := by
  cases xs with
  | nil => cases hx
  | cons a t =>
    rcases List.mem_cons.mp hx with rfl | hx
    · exact foldl_min_le_init t x
    · exact foldl_min_le_mem t a x hx

/-- The column maximum is an upper bound of the column's entries. -/
lemma le_colMax {xs : List ℚ} {x : ℚ} (hx : x ∈ xs) : x ≤ colMax xs := by
  cases xs with
  | nil => cases hx
  | cons a t =>
    rcases List.mem_cons.mp hx with rfl | hx
    · exact init_le_foldl_max t x
    · exact mem_le_foldl_max t a x hx

/-- Folding repeated dict insertions over a list of entries. -/
def insFold (d : Dict) (es : List (List Char × List Char)) : Dict :=
  es.foldl (fun d p => dictInsert d p.1 p.2) d

lemma dictGet?_dictInsert (d : Dict) (k v k' : List Char) :
    dictGet? (dictInsert d k v) k' = if k' = k then some v else dictGet? d k' := by
  induction d with
  | nil =>
    by_cases h : k' = k
    · simp [dictInsert, dictGet?, h]
    · simp [dictInsert, dictGet?, h, Ne.symm h]
  | cons p d ih =>
    by_cases hp : p.1 = k
    · by_cases h : k' = k
      · simp [dictInsert, dictGet?, hp, h]
      · simp [dictInsert, dictGet?, hp, h, Ne.symm h]
    · by_cases hq : p.1 = k'
      · have h : k' ≠ k := fun hh => hp (hq.trans hh)
        simp [dictInsert, dictGet?, hp, hq, h]
      · simp [dictInsert, dictGet?, hp, hq, ih]

lemma parseSpecs_eq_insFold (text : List Char) :
    parseSpecs text = insFold [] (lineEntries text) := by
  unfold parseSpecs lineEntries
  generalize splitOnChar '\n' text = lines
  suffices h : ∀ (lines : List (List Char)) (d : Dict),
      lines.foldl
        (fun specs line =>
          match splitFirst ':' line with
          | (k, some v) => dictInsert specs (trimChars k) (trimChars v)
          | (_, none) => specs) d
      = insFold d (lines.filterMap lineEntry?) by
    exact h lines []
  intro lines
  induction lines with
  | nil => intro d; rfl
  | cons l ls ih =>
    intro d
    rcases hsf : splitFirst ':' l with ⟨k, o⟩
    cases o with
    | none => simp [List.foldl_cons, List.filterMap_cons, lineEntry?, hsf, ih]
    | some v => simp [List.foldl_cons, List.filterMap_cons, lineEntry?, hsf, ih, insFold]

lemma dictGet?_insFold (es : List (List Char × List Char)) :
    ∀ (d : Dict) (k : List Char),
      dictGet? (insFold d es) k
        = match lastBinding? es k with
          | some v => some v
          | none => dictGet? d k := by
  induction es with
  | nil => intro d k; rfl
  | cons p es ih =>
    intro d k
    have step : insFold d (p :: es) = insFold (dictInsert d p.1 p.2) es := rfl
    rw [step, ih (dictInsert d p.1 p.2) k, dictGet?_dictInsert]
    cases hl : lastBinding? es k with
    | some v => simp [lastBinding?, hl]
    | none =>
      by_cases h : p.1 = k
      · simp [lastBinding?, hl, h]
      · simp [lastBinding?, hl, h, Ne.symm h]

lemma dictInsert_eq_append (d : Dict) (k v : List Char)
    (h : ∀ p ∈ d, p.1 ≠ k) : dictInsert d k v = d ++ [(k, v)] := by
  induction d with
  | nil => rfl
  | cons p d ih =>
    have hp : p.1 ≠ k := h p (List.mem_cons_self p d)
    simp only [dictInsert, if_neg hp, List.cons_append, List.cons.injEq, true_and]
    exact ih (fun q hq => h q (List.mem_cons_of_mem p hq))

lemma insFold_eq_append (es : List (List Char × List Char)) :
    ∀ d : Dict, (((d ++ es).map Prod.fst).Nodup) → insFold d es = d ++ es := by
  induction es with
  | nil => intro d _; simp [insFold]
  | cons p es ih =>
    intro d h
    have hmap : ((d ++ p :: es).map Prod.fst)
        = d.map Prod.fst ++ p.1 :: es.map Prod.fst := by simp
    rw [hmap] at h
    have hnotin : p.1 ∉ d.map Prod.fst :=
      fun hmem => List.disjoint_of_nodup_append h hmem (List.mem_cons_self _ _)
    have hkeys : ∀ q ∈ d, q.1 ≠ p.1 := by
      intro q hq hqe
      exact hnotin (hqe ▸ List.mem_map_of_mem Prod.fst hq)
    have step : insFold d (p :: es) = insFold (d ++ [p]) es := by
      show insFold (dictInsert d p.1 p.2) es = insFold (d ++ [p]) es
      rw [dictInsert_eq_append d p.1 p.2 hkeys]
    rw [step, ih (d ++ [p]) (by simpa using h)]
    simp

lemma dictGet?_of_nodup (es : List (List Char × List Char)) (k v : List Char)
    (hnd : (es.map Prod.fst).Nodup) (hmem : (k, v) ∈ es) :
    dictGet? es k = some v := by
  induction es with
  | nil => cases hmem
  | cons p es ih =>
    have hnd2 : (es.map Prod.fst).Nodup := (List.nodup_cons.mp (by simpa using hnd)).2
    have hhead : p.1 ∉ es.map Prod.fst := (List.nodup_cons.mp (by simpa using hnd)).1
    by_cases hp : p.1 = k
    · have hv : p = (k, v) := by
        rcases List.mem_cons.mp hmem with h | h
        · exact h.symm
        · exact absurd (hp ▸ List.mem_map_of_mem Prod.fst h) hhead
      subst hv
      simp [dictGet?]
    · have htail : (k, v) ∈ es := by
        rcases List.mem_cons.mp hmem with h | h
        · exact absurd (congrArg Prod.fst h.symm) hp
        · exact h
      simp [dictGet?, hp, ih hnd2 htail]

/-! ### Claim theorems -/

/-- Claim C1, corrected.  The claim says a zero-range (max = min) non-DATE
column becomes constant 0 after normalization.  In the code the
`max_val - min_val != 0` guard SKIPS such a column entirely, so it passes
through with its raw values: `normalizeColumn` is the identity on it, its
entries all equal the raw column minimum, and the column reappears unchanged
in the normalized table.  It is 0 only when the raw value happens to be 0. -/
theorem c1_zero_range_passthrough (cols : List (List Char × List ℚ))
    (name : List Char) (xs : List ℚ)
    (hmem : (name, xs) ∈ cols) (hname : name ≠ str "DATE")
    (hzero : colMax xs - colMin xs = 0) :
    (name, xs) ∈ normalizeTable cols ∧
    normalizeColumn xs = xs ∧
    ∀ x ∈ xs, x = colMin xs := by
  have hcol : normalizeColumn xs = xs := by
    simp [normalizeColumn, hzero]
  have heq : colMax xs = colMin xs := by linarith [sub_eq_zero.mp hzero]
  refine ⟨?_, hcol, ?_⟩
  · have hm := List.mem_map_of_mem
      (fun c : List Char × List ℚ =>
        if c.1 = str "DATE" then c else (c.1, normalizeColumn c.2)) hmem
    simpa [normalizeTable, hname, hcol] using hm
  · intro x hx
    have h1 := colMin_le hx
    have h2 := le_colMax hx
    have h3 : x ≤ colMin xs := heq ▸ h2
    exact le_antisymm h3 h1

/-- Claim C1, witness: the constant column `[5, 5]` of a concrete table has
zero range and passes through normalization unchanged. -/
theorem c1_witness :
    colMax [(5 : ℚ), 5] - colMin [(5 : ℚ), 5] = 0 ∧
    ((str "PE", [(5 : ℚ), 5]) ∈
      normalizeTable [(str "DATE", [0, 1]), (str "PE", [5, 5])] ∧
     normalizeColumn [(5 : ℚ), 5] = [5, 5] ∧
     ∀ x ∈ [(5 : ℚ), 5], x = colMin [(5 : ℚ), 5]) :=
  ⟨by norm_num [colMin, colMax],
   c1_zero_range_passthrough _ _ _ (by simp) (by decide)
     (by norm_num [colMin, colMax])⟩

/-- Claim C1, counterexample: in the table with non-DATE column `PE = [5, 5]`
(max = min = 5), normalization leaves the entries at 5, not at 0, refuting
"after normalization, every value in a zero-range column equals 0". -/
theorem c1_counterexample :
    normalizeTable [(str "DATE", [0, 1]), (str "PE", [5, 5])]
      = [(str "DATE", [0, 1]), (str "PE", [5, 5])] ∧
    (5 : ℚ) ≠ 0 := by
  have hne : str "PE" ≠ str "DATE" := by decide
  constructor
  · simp [normalizeTable, normalizeColumn, colMin, colMax, hne]
  · norm_num

/-- Claim C5, confirmed.  For a non-DATE column whose maximum strictly exceeds
its minimum, the renderer maps every entry `x` to
`(x - min) / (max - min)` (and the normalized column replaces it in the
table); the minimum is sent to 0, the maximum to 1, and every normalized
entry lies in `[0, 1]`. -/
theorem c5_minmax_normalization (cols : List (List Char × List ℚ))
    (name : List Char) (xs : List ℚ)
    (hmem : (name, xs) ∈ cols) (hname : name ≠ str "DATE")
    (hlt : colMin xs < colMax xs) :
    normalizeColumn xs
      = xs.map (fun x => (x - colMin xs) / (colMax xs - colMin xs)) ∧
    (name, xs.map (fun x => (x - colMin xs) / (colMax xs - colMin xs)))
      ∈ normalizeTable cols ∧
    (colMin xs - colMin xs) / (colMax xs - colMin xs) = 0 ∧
    (colMax xs - colMin xs) / (colMax xs - colMin xs) = 1 ∧
    ∀ y ∈ normalizeColumn xs, 0 ≤ y ∧ y ≤ 1 := by
  have hd : (0 : ℚ) < colMax xs - colMin xs := sub_pos.mpr hlt
  have hne : colMax xs - colMin xs ≠ 0 := ne_of_gt hd
  have hcol : normalizeColumn xs
      = xs.map (fun x => (x - colMin xs) / (colMax xs - colMin xs)) := by
    simp [normalizeColumn, hne]
  refine ⟨hcol, ?_, ?_, div_self hne, ?_⟩
  · have hm := List.mem_map_of_mem
      (fun c : List Char × List ℚ =>
        if c.1 = str "DATE" then c else (c.1, normalizeColumn c.2)) hmem
    simpa [normalizeTable, hname, hcol] using hm
  · simp
  · intro y hy
    rw [hcol] at hy
    rcases List.mem_map.mp hy with ⟨x, hx, rfl⟩
    constructor
    · exact div_nonneg (sub_nonneg.mpr (colMin_le hx)) (le_of_lt hd)
    · exact (div_le_one hd).mpr (sub_le_sub_right (le_colMax hx) (colMin xs))

/-- Claim C5, witness: the column `[1, 3]` of a concrete table, with min 1 and
max 3, is normalized entrywise to `(x - 1) / 2`. -/
theorem c5_witness :
    colMin [(1 : ℚ), 3] < colMax [(1 : ℚ), 3] ∧
    (normalizeColumn [(1 : ℚ), 3]
      = [(1 : ℚ), 3].map
          (fun x =>
            (x - colMin [(1 : ℚ), 3]) / (colMax [(1 : ℚ), 3] - colMin [(1 : ℚ), 3])) ∧
     (str "PE", [(1 : ℚ), 3].map
          (fun x =>
            (x - colMin [(1 : ℚ), 3]) / (colMax [(1 : ℚ), 3] - colMin [(1 : ℚ), 3])))
        ∈ normalizeTable [(str "DATE", [0]), (str "PE", [1, 3])] ∧
     (colMin [(1 : ℚ), 3] - colMin [(1 : ℚ), 3])
        / (colMax [(1 : ℚ), 3] - colMin [(1 : ℚ), 3]) = 0 ∧
     (colMax [(1 : ℚ), 3] - colMin [(1 : ℚ), 3])
        / (colMax [(1 : ℚ), 3] - colMin [(1 : ℚ), 3]) = 1 ∧
     ∀ y ∈ normalizeColumn [(1 : ℚ), 3], 0 ≤ y ∧ y ≤ 1) :=
  ⟨by norm_num [colMin, colMax],
   c5_minmax_normalization _ _ _ (by simp) (by decide)
     (by norm_num [colMin, colMax])⟩

/-- Claim C10, confirmed.  The parser's mapping binds a key to the trimmed
value coming from the LAST colon-containing line whose trimmed key equals it
(later lines overwrite earlier ones); keys occurring on no colon line are
absent. -/
theorem c10_last_line_wins (text : List Char) (k : List Char) :
    dictGet? (parseSpecs text) k = lastBinding? (lineEntries text) k := by
  rw [parseSpecs_eq_insFold]
  have h := dictGet?_insFold (lineEntries text) [] k
  cases hl : lastBinding? (lineEntries text) k with
  | some v => rw [h, hl]
  | none => rw [h, hl]; rfl

/-- Claim C4, corrected.  The claim, read per line, fails when two
colon-containing lines share the same trimmed key (the dict keeps only the
last value, see `c4_counterexample`).  Amended: when the trimmed keys of the
colon-containing lines are pairwise distinct, the parser's mapping is exactly
the list of `(trimmed key before first colon, trimmed remainder)` pairs of
those lines, in order — so every colon line contributes its entry, every such
key looks up to that line's trimmed value, and colon-free lines contribute
nothing. -/
theorem c4_parser_distinct_keys (text : List Char)
    (hnd : ((lineEntries text).map Prod.fst).Nodup) :
    parseSpecs text = lineEntries text ∧
    ∀ line ∈ splitOnChar '\n' text, ∀ k rest,
      splitFirst ':' line = (k, some rest) →
      dictGet? (parseSpecs text) (trimChars k) = some (trimChars rest) := by
  have heq : parseSpecs text = lineEntries text := by
    rw [parseSpecs_eq_insFold]
    simpa using insFold_eq_append (lineEntries text) [] (by simpa using hnd)
  refine ⟨heq, ?_⟩
  intro line hline k rest hsf
  have hentry : (trimChars k, trimChars rest) ∈ lineEntries text :=
    List.mem_filterMap.mpr ⟨line, hline, by simp [lineEntry?, hsf]⟩
  rw [heq]
  exact dictGet?_of_nodup _ _ _ hnd hentry

/-- Claim C4, counterexample: in the two-line text `A: 1` / `A: 2`, both lines
contain a colon, but the resulting mapping has a single entry binding `A` to
`2`; the first line's pair `(A, 1)` is not in the mapping, refuting "an entry
for every line containing at least one colon ... whose value is the remainder
of the line trimmed". -/
theorem c4_counterexample :
    parseSpecs (str "A: 1\nA: 2") = [(str "A", str "2")] ∧
    dictGet? (parseSpecs (str "A: 1\nA: 2")) (str "A") ≠ some (str "1") ∧
    splitFirst ':' (str "A: 1") = (str "A", some (str " 1")) := by
  refine ⟨by decide, by decide, by decide⟩

/-- Claim C4, witness: a three-line response with two distinct keys and one
colon-free line parses to exactly its per-line entries. -/
theorem c4_witness :
    ((lineEntries (str "Title: My Graph\nType: line\nno colon here")).map
        Prod.fst).Nodup ∧
    parseSpecs (str "Title: My Graph\nType: line\nno colon here")
      = lineEntries (str "Title: My Graph\nType: line\nno colon here") :=
  ⟨by decide,
   (c4_parser_distinct_keys _ (by decide)).1⟩

/-- Claim C2, corrected.  When a `Type` key is present, the renderer takes the
stacked-area path exactly when its value lowercased equals `stacked`; but an
ABSENT `Type` key defaults to the value `"stacked"` (line 133:
`specs.get("Type", "stacked")`) and therefore also takes the stacked-area
path, not the line-plot path the claim states (see `c2_counterexample`). -/
theorem c2_stacked_selection (specs : Dict) :
    (∀ v, dictGet? specs (str "Type") = some v →
      (usesStacked specs = true ↔ lowerStr v = str "stacked")) ∧
    (dictGet? specs (str "Type") = none → usesStacked specs = true) := by
  constructor
  · intro v hv
    simp [usesStacked, graphType, dictGetD, hv]
  · intro hnone
    simp [usesStacked, graphType, dictGetD, hnone]
    decide

/-- Claim C2, counterexample: the empty spec mapping has no `Type` key, yet
the renderer takes the stacked-area path, refuting "an absent Type key takes
the line-plot path". -/
theorem c2_counterexample :
    dictGet? ([] : Dict) (str "Type") = none ∧
    usesStacked ([] : Dict) = true := by decide

/-- Claim C2, witness: a spec with `Type: LINE` takes the line-plot path, and
a spec without a `Type` key takes the stacked-area path. -/
theorem c2_witness :
    usesStacked [(str "Type", str "LINE")] = false ∧
    usesStacked [(str "X-axis", str "Date")] = true := by
  constructor
  · have h := (c2_stacked_selection [(str "Type", str "LINE")]).1 (str "LINE") (by decide)
    rw [Bool.eq_false_iff]
    intro ht
    exact absurd (h.mp ht) (by decide)
  · exact (c2_stacked_selection [(str "X-axis", str "Date")]).2 (by decide)

/-- Claim C7, corrected.  The axis-label fallbacks are the literal strings
`Date` and `Normalized Value (0-1 scale)` as claimed, but the rendered TITLE
is the fallback `NVIDIA Financial Metrics` with `" (Normalized)"` appended
(line 135), so it is not exactly the literal fallback string (see
`c7_counterexample`). -/
theorem c7_fallback_labels (specs : Dict)
    (h1 : dictGet? specs (str "Title") = none)
    (h2 : dictGet? specs (str "X-axis") = none)
    (h3 : dictGet? specs (str "Y-axis") = none) :
    renderedTitle specs = str "NVIDIA Financial Metrics" ++ str " (Normalized)" ∧
    renderedXLabel specs = str "Date" ∧
    renderedYLabel specs = str "Normalized Value (0-1 scale)" := by
  refine ⟨?_, ?_, ?_⟩ <;>
    simp [renderedTitle, renderedXLabel, renderedYLabel, dictGetD, h1, h2, h3]

/-- Claim C7, counterexample: with no `Title` key the rendered title is
`NVIDIA Financial Metrics (Normalized)`, which differs from the claimed exact
title `NVIDIA Financial Metrics`. -/
theorem c7_counterexample :
    renderedTitle ([] : Dict) = str "NVIDIA Financial Metrics (Normalized)" ∧
    renderedTitle ([] : Dict) ≠ str "NVIDIA Financial Metrics" := by decide

/-- Claim C7, witness: the empty spec mapping gets all three fallbacks. -/
theorem c7_witness :
    renderedTitle ([] : Dict) = str "NVIDIA Financial Metrics" ++ str " (Normalized)" ∧
    renderedXLabel ([] : Dict) = str "Date" ∧
    renderedYLabel ([] : Dict) = str "Normalized Value (0-1 scale)" :=
  c7_fallback_labels [] rfl rfl rfl

/-- Claim C8, confirmed.  When the SpecAdvisor stage returns the empty mapping
(its failure value), the pipeline substitutes the fixed hardcoded
`defaultSpecs`, whose `Type` is `line`, before the renderer runs — and on that
spec the renderer takes the line-plot path, never the stacked-area path. -/
theorem c8_empty_specs_line_plot :
    specsUsed ([] : Dict) = defaultSpecs ∧
    dictGet? defaultSpecs (str "Type") = some (str "line") ∧
    usesStacked (specsUsed ([] : Dict)) = false := by decide

/-- Claim C6, corrected.  The dispatch is an `if`/`elif` chain, so each
substring test only applies when all earlier ones failed: a model name
containing `claude` always gets the Anthropic client even when it also
contains `gemini`, `deepseek` or `grok` (see `c6_counterexample`).  Amended:
the Gemini / DeepSeek / Groq clients are selected when the name contains their
substring and none of the earlier substrings; names containing none of the
four get the Anthropic client with the fixed model `claude-3-haiku-20240307`. -/
theorem c6_dispatch_priority (s : List Char) :
    (occursIn (str "claude") s = true → initLlm s = .anthropic s) ∧
    (occursIn (str "claude") s = false → occursIn (str "gemini") s = true →
      initLlm s = .gemini s) ∧
    (occursIn (str "claude") s = false → occursIn (str "gemini") s = false →
      occursIn (str "deepseek") s = true → initLlm s = .deepseek s) ∧
    (occursIn (str "claude") s = false → occursIn (str "gemini") s = false →
      occursIn (str "deepseek") s = false → occursIn (str "grok") s = true →
      initLlm s = .groq s) ∧
    (occursIn (str "claude") s = false → occursIn (str "gemini") s = false →
      occursIn (str "deepseek") s = false → occursIn (str "grok") s = false →
      initLlm s = .anthropic (str "claude-3-haiku-20240307")) := by
  refine ⟨?_, ?_, ?_, ?_, ?_⟩ <;> intros <;> simp_all [initLlm]

/-- Claim C6, counterexample: the model name `claude-gemini` contains
`gemini`, yet the selector constructs the Anthropic client, not the Gemini
client, refuting the claim's unconditional "Google Gemini client if it
contains gemini". -/
theorem c6_counterexample :
    occursIn (str "gemini") (str "claude-gemini") = true ∧
    initLlm (str "claude-gemini") = .anthropic (str "claude-gemini") := by decide

/-- Claim C6, witness: one representative model name per provider branch, and
an unrecognized name falling to the fixed default Claude model. -/
theorem c6_witness :
    initLlm (str "claude-3-haiku-20240307") = .anthropic (str "claude-3-haiku-20240307") ∧
    initLlm (str "gemini-2.0-flash") = .gemini (str "gemini-2.0-flash") ∧
    initLlm (str "deepseek-chat") = .deepseek (str "deepseek-chat") ∧
    initLlm (str "grok-2") = .groq (str "grok-2") ∧
    initLlm (str "gpt-4o") = .anthropic (str "claude-3-haiku-20240307") :=
  ⟨(c6_dispatch_priority _).1 (by decide),
   (c6_dispatch_priority _).2.1 (by decide) (by decide),
   (c6_dispatch_priority _).2.2.1 (by decide) (by decide) (by decide),
   (c6_dispatch_priority _).2.2.2.1 (by decide) (by decide) (by decide) (by decide),
   (c6_dispatch_priority _).2.2.2.2 (by decide) (by decide) (by decide) (by decide)⟩

/-- Claim C9, confirmed.  The substring dispatch is case-sensitive and checks
`claude` first: any name containing lowercase `claude` gets the Anthropic
client with that very name, whatever else it contains; and a name containing
only the differently-cased `Claude` (and none of the four lowercase
substrings) falls through every branch to the default Anthropic client with
model `claude-3-haiku-20240307`. -/
theorem c9_case_sensitive_order (s : List Char) :
    (occursIn (str "claude") s = true → initLlm s = .anthropic s) ∧
    (occursIn (str "Claude") s = true → occursIn (str "claude") s = false →
      occursIn (str "gemini") s = false → occursIn (str "deepseek") s = false →
      occursIn (str "grok") s = false →
      initLlm s = .anthropic (str "claude-3-haiku-20240307")) := by
  constructor
  · intro h; simp [initLlm, h]
  · intro _ h1 h2 h3 h4; simp [initLlm, h1, h2, h3, h4]

/-- Claim C9, witness: `claude-gemini-deepseek-grok` contains every provider
substring yet selects Anthropic, and `Claude-3-Opus` (capital C) falls through
to the default model. -/
theorem c9_witness :
    initLlm (str "claude-gemini-deepseek-grok")
      = .anthropic (str "claude-gemini-deepseek-grok") ∧
    initLlm (str "Claude-3-Opus") = .anthropic (str "claude-3-haiku-20240307") :=
  ⟨(c9_case_sensitive_order _).1 (by decide),
   (c9_case_sensitive_order _).2 (by decide) (by decide) (by decide) (by decide)
     (by decide)⟩

/-- Claim C3, confirmed.  Whenever the fetched result is empty, lacks a `DATE`
column after column-name normalization, or has a `DATE` column every row of
which fails datetime parsing, `get_valuation_summary_with_llm_graph` returns a
record with status `failed` carrying a non-empty error message, and neither
the LLM spec stage nor the chart renderer is reached. -/
theorem c3_validation_failure (df : FetchedFrame) (llmSpecs : Dict) (renderOk : Bool)
    (h : df.nRows = 0 ∨
         (str "DATE") ∉ df.colNames.map normalizeColName ∨
         ∀ c ∈ df.dateCells, c = none) :
    statusOf (runPipeline df llmSpecs renderOk).result = str "failed" ∧
    (∃ msg, (runPipeline df llmSpecs renderOk).result = .failed msg ∧ msg ≠ []) ∧
    (runPipeline df llmSpecs renderOk).llmInvoked = false ∧
    (runPipeline df llmSpecs renderOk).rendererInvoked = false := by
  by_cases h0 : df.nRows = 0
  · have hrp : runPipeline df llmSpecs renderOk =
        ⟨.failed (str "No data returned from Snowflake. Ensure the table contains data."),
         false, false⟩ := by
      simp [runPipeline, h0]
    rw [hrp]
    exact ⟨rfl, ⟨_, rfl, by decide⟩, rfl, rfl⟩
  · by_cases hc : (str "DATE") ∈ df.colNames.map normalizeColName
    · have ha : ∀ c ∈ df.dateCells, c = none := by
        rcases h with h | h | h
        · exact absurd h h0
        · exact absurd hc h
        · exact h
      have hrp : runPipeline df llmSpecs renderOk =
          ⟨.failed (str "The \x27DATE\x27 column could not be parsed as datetime."),
           false, false⟩ := by
        simp only [runPipeline]
        rw [if_neg h0, if_pos hc, if_pos ha]
      rw [hrp]
      exact ⟨rfl, ⟨_, rfl, by decide⟩, rfl, rfl⟩
    · have hrp : runPipeline df llmSpecs renderOk =
          ⟨.failed (str "The \x27DATE\x27 column is missing from the data."),
           false, false⟩ := by
        simp [runPipeline, h0, hc]
      rw [hrp]
      exact ⟨rfl, ⟨_, rfl, by decide⟩, rfl, rfl⟩

/-- Claim C3, witness: an empty query result produces a `failed` record with a
non-empty message and reaches neither the LLM nor the renderer. -/
theorem c3_witness :
    statusOf (runPipeline ⟨[str "DATE"], 0, []⟩ [] true).result = str "failed" ∧
    (∃ msg, (runPipeline ⟨[str "DATE"], 0, []⟩ [] true).result = .failed msg ∧ msg ≠ []) ∧
    (runPipeline ⟨[str "DATE"], 0, []⟩ [] true).llmInvoked = false ∧
    (runPipeline ⟨[str "DATE"], 0, []⟩ [] true).rendererInvoked = false :=
  c3_validation_failure _ _ _ (Or.inl rfl)
